import Mathlib

/-!
# Verification of `dsp/freeverb16.hpp` (fixed-point Freeverb, Q15)

Shallow embedding of the fixed-point stereo reverberation engine
`dsp::Freeverb16` from `Demonstrations+HelloWorlds/PicoSDK/ComputerCard`.

Modelling conventions:
* C `int16_t` values are modelled as `Int`, with the C cast `(int16_t)`
  made explicit by the two's-complement wrap `i16`.
* C arithmetic right shift of a (possibly negative) 32-bit value is floor
  division; Lean's `/` on `Int` (Euclidean division) agrees with floor
  division for positive divisors, so `x >> k` is embedded as `x / 2^k`
  written with a literal divisor.
* The float helper `q15FromFloat` is embedded over `ℚ`.  For every constant
  argument appearing in the source (1.0, 0.7, 0.28, 0.4, 1/3, 0.5, 0.1) the
  IEEE single-precision computation in the C code produces the same integer
  as the rational computation here: the multiplication by `32768.0f` is an
  exact exponent shift, and none of the products lies within float rounding
  distance (< 0.002) of a truncation boundary.
-/

namespace dsp

/-- The C cast `(int16_t)`: wrap an integer into `[-32768, 32767]`
(two's complement). -/
def i16 (x : Int) : Int := (x + 32768) % 65536 - 32768

/-- Source `dsp::q15Saturate`: clamp a 32-bit accumulator into the Q15 range. -/
def q15Saturate (x : Int) : Int :=
  if x > 32767 then 32767 else if x < -32768 then -32768 else x

/-- Source `dsp::q15Mul`: `(a * b) >> 15` with rounding (`prod += 1 << 14` first);
the final C cast `(int16_t)` wraps. -/
def q15Mul (a b : Int) : Int := i16 ((a * b + 16384) / 32768)

/-- The C cast `(int32_t)` applied to a real value: truncation toward zero. -/
def ratTrunc (q : ℚ) : Int := if 0 ≤ q then ⌊q⌋ else -⌊-q⌋

/-- Source `dsp::q15FromFloat`, over `ℚ` (see the file header for why the rational
computation agrees with the C float computation at every call site). -/
def q15FromFloat (x : ℚ) : Int :=
  let x1 := if x > 999969 / 1000000 then (999969 / 1000000 : ℚ) else x
  let x2 := if x1 < -1 then (-1 : ℚ) else x1
  let v := ratTrunc (x2 * 32768)
  let v1 := if v > 32767 then 32767 else v
  if v1 < -32768 then -32768 else v1

/-- State of one comb filter: delay buffer, write index, one-pole damping
memory (`filterStore` in the source).  The active length is kept alongside
the state by the engine, as in the source's separate `combLen` arrays. -/
structure CombState where
  buf : List Int
  idx : Nat
  filt : Int
deriving DecidableEq

/-- State of one allpass filter: delay buffer and write index. -/
structure APState where
  buf : List Int
  idx : Nat
deriving DecidableEq

/-- Source `Freeverb16::combProcess`: one comb-filter step in Q15.  Returns the
output sample together with the updated filter state. -/
def combProcess (damp1 feedback input : Int) (c : CombState) (len : Nat) :
    Int × CombState :=
  let y := c.buf.getD c.idx 0
  let diff := i16 (c.filt - y)
  let delta := q15Mul diff damp1
  let newFilt := i16 (y + delta)
  let fb := q15Mul newFilt feedback
  let writeVal := i16 (q15Saturate (input + fb))
  let idx2 := if c.idx + 1 ≥ len then 0 else c.idx + 1
  (y, ⟨c.buf.set c.idx writeVal, idx2, newFilt⟩)

/-- The fixed allpass feedback coefficient `kApFeedbackQ15` (0.5 in Q15). -/
def kApFeedbackQ15 : Int := 16384

/-- Source `Freeverb16::allpassProcess`: one allpass step in Q15. -/
def allpassProcess (input : Int) (a : APState) (len : Nat) : Int × APState :=
  let bufout := a.buf.getD a.idx 0
  let acc := i16 (q15Saturate (input + q15Mul bufout kApFeedbackQ15))
  let output := i16 (q15Saturate (bufout - q15Mul acc kApFeedbackQ15))
  let idx2 := if a.idx + 1 ≥ len then 0 else a.idx + 1
  (output, ⟨a.buf.set a.idx acc, idx2⟩)

/-- Run one comb filter over a list of successive input samples, collecting
the outputs (the per-sample loop of `processBlock`, restricted to one comb). -/
def combRun (damp1 feedback : Int) (inputs : List Int) (c : CombState)
    (len : Nat) : List Int × CombState :=
  match inputs with
  | [] => ([], c)
  | x :: rest =>
    let r := combProcess damp1 feedback x c len
    let rr := combRun damp1 feedback rest r.2 len
    (r.1 :: rr.1, rr.2)

/-- The engine state: per-channel comb and allpass filters (each paired with
its active delay length, the source's `combLen`/`allpLen` arrays) and the
Q15 parameters and derived coefficients. -/
structure Freeverb16 where
  combL : List (CombState × Nat)
  combR : List (CombState × Nat)
  allpL : List (APState × Nat)
  allpR : List (APState × Nat)
  inputGainQ15 : Int
  roomSizeQ15 : Int
  dampQ15 : Int
  feedbackQ15 : Int
  damp1Q15 : Int
  damp2Q15 : Int
  wetQ15 : Int
  dryQ15 : Int
  widthQ15 : Int
  wet1Q15 : Int
  wet2Q15 : Int
  freeze : Bool
deriving DecidableEq

/-- Source `Freeverb16::updateFeedback`. -/
def updateFeedback (s : Freeverb16) : Freeverb16 :=
  { s with feedbackQ15 := s.roomSizeQ15 }

/-- Source `Freeverb16::updateDamp`: `damp1 = damp`, `damp2 = (int16_t)(32767 - damp1)`. -/
def updateDamp (s : Freeverb16) : Freeverb16 :=
  { s with damp1Q15 := s.dampQ15, damp2Q15 := i16 (32767 - s.dampQ15) }

/-- Source `Freeverb16::updateWetMix`: derive `wet1`/`wet2` from wet and width. -/
def updateWetMix (s : Freeverb16) : Freeverb16 :=
  let halfQ15 : Int := 16384
  let w_over_2 := i16 ((s.widthQ15 + 1) / 2)
  let one_minus_w_over_2 := i16 (halfQ15 - w_over_2)
  let sum0 := w_over_2 + halfQ15
  let sum1 := if sum0 > 32767 then 32767 else sum0
  { s with wet1Q15 := q15Mul s.wetQ15 sum1,
           wet2Q15 := q15Mul s.wetQ15 one_minus_w_over_2 }

/-- Source `Freeverb16::setRoomSizeQ15`: `room = 0.28 + 0.7 * val`, then refresh the
feedback coefficient. -/
def setRoomSizeQ15 (valQ15 : Int) (s : Freeverb16) : Freeverb16 :=
  let scaleRoomQ15 := q15FromFloat (7 / 10)
  let offsetRoomQ15 := q15FromFloat (28 / 100)
  let scaled := q15Mul valQ15 scaleRoomQ15
  updateFeedback { s with roomSizeQ15 := q15Saturate (scaled + offsetRoomQ15) }

/-- Source `Freeverb16::setDampingQ15`: `damp = 0.4 * val`, then refresh `damp1`/`damp2`. -/
def setDampingQ15 (valQ15 : Int) (s : Freeverb16) : Freeverb16 :=
  updateDamp { s with dampQ15 := q15Mul valQ15 (q15FromFloat (4 / 10)) }

/-- Source `Freeverb16::setWetQ15`. -/
def setWetQ15 (valQ15 : Int) (s : Freeverb16) : Freeverb16 :=
  updateWetMix { s with wetQ15 := valQ15 }

/-- Source `Freeverb16::setDryQ15` (no derived coefficient depends on dry). -/
def setDryQ15 (valQ15 : Int) (s : Freeverb16) : Freeverb16 :=
  { s with dryQ15 := valQ15 }

/-- Source `Freeverb16::setWidthQ15`. -/
def setWidthQ15 (valQ15 : Int) (s : Freeverb16) : Freeverb16 :=
  updateWetMix { s with widthQ15 := valQ15 }

/-- Source `Freeverb16::setFreeze`: enabling pins `feedback = q15FromFloat(1.0)`,
`damp1 = 0`, `damp2 = q15FromFloat(1.0)`, `inputGain = 0`; disabling sets
`inputGain = q15FromFloat(0.10)` and recomputes feedback and damping from
the stored parameters. -/
def setFreeze (enabled : Bool) (s : Freeverb16) : Freeverb16 :=
  if enabled then
    { s with freeze := true,
             feedbackQ15 := q15FromFloat 1,
             damp1Q15 := 0,
             damp2Q15 := q15FromFloat 1,
             inputGainQ15 := 0 }
  else
    updateDamp (updateFeedback
      { s with freeze := false, inputGainQ15 := q15FromFloat (10 / 100) })

/-- Source `Freeverb16::setInputGainQ15`. -/
def setInputGainQ15 (gQ15 : Int) (s : Freeverb16) : Freeverb16 :=
  { s with inputGainQ15 := gQ15 }

/-- Source `Freeverb16::resetState`: zero every delay buffer (to full capacity:
2048 per comb, 640 per allpass), write index and damping memory, keep the
active lengths, and install the default parameter values. -/
def resetState (s : Freeverb16) : Freeverb16 :=
  let s1 := { s with
    combL := s.combL.map fun p => (⟨List.replicate 2048 0, 0, 0⟩, p.2),
    combR := s.combR.map fun p => (⟨List.replicate 2048 0, 0, 0⟩, p.2),
    allpL := s.allpL.map fun p => (⟨List.replicate 640 0, 0⟩, p.2),
    allpR := s.allpR.map fun p => (⟨List.replicate 640 0, 0⟩, p.2),
    wetQ15 := q15FromFloat (1 / 3),
    dryQ15 := q15FromFloat 1,
    widthQ15 := q15FromFloat 1 }
  let s2 := updateWetMix s1
  let s3 := { s2 with inputGainQ15 := q15FromFloat (10 / 100) }
  let s4 := setDampingQ15 (q15FromFloat (1 / 2)) (setRoomSizeQ15 (q15FromFloat (1 / 2)) s3)
  { s4 with freeze := false }

/-- The classic Freeverb comb tunings at 44.1 kHz (`baseComb` in `init`). -/
def baseComb : List Nat := [1116, 1188, 1277, 1356, 1422, 1491, 1557, 1617]

/-- The classic Freeverb allpass tunings at 44.1 kHz (`baseAllp` in `init`). -/
def baseAllp : List Nat := [556, 441, 341, 225]

/-- Stereo spread added to the right-channel delay lengths. -/
def kSpread : Nat := 23

/-- Comb buffer capacity `kCombMax`. -/
def kCombMax : Nat := 2048

/-- Allpass buffer capacity `kAllpMax`. -/
def kAllpMax : Nat := 640

/-- The `scaleLen` lambda in `init`:
`length_scaled = (base * sampleRate + 22050) / 44100` (integer division). -/
def scaleLen (base sampleRate : Nat) : Nat := (base * sampleRate + 22050) / 44100

/-- The per-length clamping in `init`: into `[1, cap]`. -/
def clampLen (cap n : Nat) : Nat := if n < 1 then 1 else if n > cap then cap else n

/-- Source `Freeverb16::init`: compute the active lengths for the target sample
rate (left channel scaled, right channel scaled plus spread, both clamped),
reset all state and apply the default parameters
(room 0.5, damping 0.5, wet 1/3, dry 1.0, width 1.0, freeze off). -/
def init (sampleRate : Nat) : Freeverb16 :=
  let s0 : Freeverb16 := {
    combL := baseComb.map fun b =>
      (⟨[], 0, 0⟩, clampLen kCombMax (scaleLen b sampleRate)),
    combR := baseComb.map fun b =>
      (⟨[], 0, 0⟩, clampLen kCombMax (scaleLen b sampleRate + kSpread)),
    allpL := baseAllp.map fun b =>
      (⟨[], 0⟩, clampLen kAllpMax (scaleLen b sampleRate)),
    allpR := baseAllp.map fun b =>
      (⟨[], 0⟩, clampLen kAllpMax (scaleLen b sampleRate + kSpread)),
    inputGainQ15 := 0, roomSizeQ15 := 0, dampQ15 := 0, feedbackQ15 := 0,
    damp1Q15 := 0, damp2Q15 := 0, wetQ15 := 0, dryQ15 := 0, widthQ15 := 0,
    wet1Q15 := 0, wet2Q15 := 0, freeze := false }
  setFreeze false (setWidthQ15 (q15FromFloat 1) (setDryQ15 (q15FromFloat 1)
    (setWetQ15 (q15FromFloat (1 / 3)) (setDampingQ15 (q15FromFloat (1 / 2))
      (setRoomSizeQ15 (q15FromFloat (1 / 2)) (resetState s0))))))

/-- The comb-bank loop of `processBlock` for one channel: run every comb on
the (gain-scaled) input sample and accumulate the sum of their outputs. -/
def combBankStep (damp1 feedback input : Int) :
    List (CombState × Nat) → Int × List (CombState × Nat)
  | [] => (0, [])
  | p :: rest =>
    let r := combProcess damp1 feedback input p.1 p.2
    let rr := combBankStep damp1 feedback input rest
    (r.1 + rr.1, (r.2, p.2) :: rr.2)

/-- The combined comb-bank output for one channel in `processBlock`:
`(int16_t)((acc + 4) >> 3)`, the sum of the eight comb outputs divided by 8
with rounding.  This is the value fed into the allpass cascade. -/
def combBankOut (damp1 feedback input : Int) (bank : List (CombState × Nat)) :
    Int × List (CombState × Nat) :=
  let r := combBankStep damp1 feedback input bank
  (i16 ((r.1 + 4) / 8), r.2)

/-- The serial allpass cascade of `processBlock` for one channel. -/
def allpCascade (y : Int) : List (APState × Nat) → Int × List (APState × Nat)
  | [] => (y, [])
  | p :: rest =>
    let r := allpassProcess y p.1 p.2
    let rr := allpCascade r.1 rest
    (rr.1, (r.2, p.2) :: rr.2)

/-- One iteration of the `processBlock` loop (both channels present):
domain conversion in (`<< 4`), input gain, comb banks, `/8` rounding,
allpass cascades, stereo wet/dry mix, Q15 saturation, domain conversion
out (`>> 4`).  Returns the two output samples and the updated engine. -/
def processSample (s : Freeverb16) (inl inr : Int) :
    (Int × Int) × Freeverb16 :=
  let xL := i16 (16 * inl)
  let xR := i16 (16 * inr)
  let xinL := q15Mul xL s.inputGainQ15
  let xinR := q15Mul xR s.inputGainQ15
  let pL := combBankOut s.damp1Q15 s.feedbackQ15 xinL s.combL
  let pR := combBankOut s.damp1Q15 s.feedbackQ15 xinR s.combR
  let qL := allpCascade pL.1 s.allpL
  let qR := allpCascade pR.1 s.allpR
  let mixL := q15Mul qL.1 s.wet1Q15 + q15Mul qR.1 s.wet2Q15 + q15Mul xL s.dryQ15
  let mixR := q15Mul qR.1 s.wet1Q15 + q15Mul qL.1 s.wet2Q15 + q15Mul xR s.dryQ15
  let outL := i16 (q15Saturate mixL / 16)
  let outR := i16 (q15Saturate mixR / 16)
  ((outL, outR),
   { s with combL := pL.2, combR := pR.2, allpL := qL.2, allpR := qR.2 })

/-- Source `Freeverb16::processBlock` (both input channels present): iterate
`processSample` over a block, collecting the output sample pairs. -/
def processBlock (s : Freeverb16) : List (Int × Int) → List (Int × Int) × Freeverb16
  | [] => ([], s)
  | (inl, inr) :: rest =>
    let r := processSample s inl inr
    let rr := processBlock r.2 rest
    (r.1 :: rr.1, rr.2)

/-- A call to one of the two mix-affecting setters (`setWetQ15` or
`setWidthQ15`), with its argument. -/
inductive WetWidthCall where
  | wet (v : Int)
  | width (v : Int)
deriving DecidableEq

/-- Apply one wet/width setter call to the engine. -/
def applyWW (call : WetWidthCall) (s : Freeverb16) : Freeverb16 :=
  match call with
  | .wet v => setWetQ15 v s
  | .width v => setWidthQ15 v s

/-- Argument carried by a wet/width setter call. -/
def wwArg : WetWidthCall → Int
  | .wet v => v
  | .width v => v

/-- Apply a sequence of wet/width setter calls, oldest first. -/
def applyWWs (calls : List WetWidthCall) (s : Freeverb16) : Freeverb16 :=
  calls.foldl (fun t call => applyWW call t) s

/-- Claimed relation between the derived mix gains and the stored wet/width
parameters: `wet1 = wet * (width/2 + 0.5)` and `wet2 = wet * ((1 - width)/2)`
up to one Q15 unit of rounding (all values Q15, so the ideal products are
`wet * (width + 32768) / 65536` and `wet * (32768 - width) / 65536`), with
the exact special cases at full width (`width = 32767`: `wet2 = 0`) and zero
width (`wet1 = wet2 = wet * 0.5`). -/
def wetMixConsistent (t : Freeverb16) : Prop :=
  (-65536 ≤ 65536 * t.wet1Q15 - t.wetQ15 * (t.widthQ15 + 32768) ∧
   65536 * t.wet1Q15 - t.wetQ15 * (t.widthQ15 + 32768) ≤ 65536) ∧
  (-65536 ≤ 65536 * t.wet2Q15 - t.wetQ15 * (32768 - t.widthQ15) ∧
   65536 * t.wet2Q15 - t.wetQ15 * (32768 - t.widthQ15) ≤ 65536) ∧
  (t.widthQ15 = 32767 → t.wet2Q15 = 0) ∧
  (t.widthQ15 = 0 →
    t.wet1Q15 = q15Mul t.wetQ15 (q15FromFloat (1 / 2)) ∧
    t.wet2Q15 = q15Mul t.wetQ15 (q15FromFloat (1 / 2)))

/-- A concrete eight-comb bank used to witness the comb-bank theorems. -/
def bank8 : List (CombState × Nat) := List.replicate 8 (⟨[5, -3], 0, 7⟩, 2)

/-! Values of the `q15FromFloat` constants used by the engine. -/

theorem q15FromFloat_one : q15FromFloat 1 = 32766 := by
  norm_num [q15FromFloat, ratTrunc]

theorem q15FromFloat_p7 : q15FromFloat (7 / 10) = 22937 := by
  norm_num [q15FromFloat, ratTrunc]

theorem q15FromFloat_p28 : q15FromFloat (28 / 100) = 9175 := by
  norm_num [q15FromFloat, ratTrunc]

theorem q15FromFloat_p4 : q15FromFloat (4 / 10) = 13107 := by
  norm_num [q15FromFloat, ratTrunc]

theorem q15FromFloat_third : q15FromFloat (1 / 3) = 10922 := by
  norm_num [q15FromFloat, ratTrunc]

theorem q15FromFloat_half : q15FromFloat (1 / 2) = 16384 := by
  norm_num [q15FromFloat, ratTrunc]

theorem q15FromFloat_p1 : q15FromFloat (10 / 100) = 3276 := by
  norm_num [q15FromFloat, ratTrunc]

/-! Basic facts about the fixed-point primitives. -/

theorem i16_eq_self {x : Int} (h1 : -32768 ≤ x) (h2 : x ≤ 32767) : i16 x = x := by
  unfold i16; omega

theorem i16_range (x : Int) : -32768 ≤ i16 x ∧ i16 x ≤ 32767 := by
  unfold i16; omega

theorem q15Saturate_range (x : Int) :
    -32768 ≤ q15Saturate x ∧ q15Saturate x ≤ 32767 := by
  unfold q15Saturate; split_ifs <;> omega

theorem q15Saturate_eq_self {x : Int} (h1 : -32768 ≤ x) (h2 : x ≤ 32767) :
    q15Saturate x = x := by
  unfold q15Saturate; split_ifs <;> omega

theorem i16_q15Saturate (x : Int) : i16 (q15Saturate x) = q15Saturate x :=
  i16_eq_self (q15Saturate_range x).1 (q15Saturate_range x).2

theorem q15Mul_zero_right (a : Int) : q15Mul a 0 = 0 := by
  simp [q15Mul, i16]

/-- Multiplying a genuine int16 value by the freeze feedback constant 32766
never wraps, stays in the int16 range, and never crosses zero: values `≥ 1`
stay `≥ 1` and values `≤ -1` stay `≤ -1`. -/
theorem q15Mul_freeze (v : Int) (h1 : -32768 ≤ v) (h2 : v ≤ 32767) :
    q15Mul v 32766 = (v * 32766 + 16384) / 32768 ∧
    -32768 ≤ q15Mul v 32766 ∧ q15Mul v 32766 ≤ 32767 ∧
    (1 ≤ v → 1 ≤ q15Mul v 32766) ∧ (v ≤ -1 → q15Mul v 32766 ≤ -1) := by
  have hlo : (-32768 : Int) * 32766 ≤ v * 32766 :=
    mul_le_mul_of_nonneg_right h1 (by norm_num)
  have hhi : v * 32766 ≤ 32767 * 32766 :=
    mul_le_mul_of_nonneg_right h2 (by norm_num)
  have hid : i16 ((v * 32766 + 16384) / 32768) = (v * 32766 + 16384) / 32768 := by
    apply i16_eq_self <;> omega
  have hq : q15Mul v 32766 = (v * 32766 + 16384) / 32768 := by
    simpa [q15Mul] using hid
  refine ⟨hq, ?_, ?_, ?_, ?_⟩
  · omega
  · omega
  · intro hv
    have : 1 * 32766 ≤ v * 32766 := mul_le_mul_of_nonneg_right hv (by norm_num)
    omega
  · intro hv
    have : v * 32766 ≤ (-1) * 32766 := mul_le_mul_of_nonneg_right hv (by norm_num)
    omega

/-! Small helpers about list cells and circular indices. -/

theorem getD_set_self (l : List Int) (i : Nat) (v : Int) (h : i < l.length) :
    (l.set i v).getD i 0 = v := by
  simp [List.getD_eq_getElem?_getD, List.getElem?_set_self', h]

theorem getD_set_ne (l : List Int) (i j : Nat) (v : Int) (h : i ≠ j) :
    (l.set i v).getD j 0 = l.getD j 0 := by
  simp [List.getD_eq_getElem?_getD, List.getElem?_set_ne h]

theorem getD_range (l : List Int) (i : Nat)
    (h : ∀ v ∈ l, -32768 ≤ v ∧ v ≤ 32767) :
    -32768 ≤ l.getD i 0 ∧ l.getD i 0 ≤ 32767 := by
  rcases Nat.lt_or_ge i l.length with hi | hi
  · rw [List.getD_eq_getElem?_getD, List.getElem?_eq_getElem hi]
    exact h _ (List.getElem_mem hi)
  · rw [List.getD_eq_getElem?_getD, List.getElem?_eq_none hi]
    norm_num

theorem mem_set_cases {l : List Int} {i : Nat} {v w : Int}
    (h : v ∈ l.set i w) : v ∈ l ∨ v = w :=
  List.mem_or_eq_of_mem_set h

/-- A circular index stepped by `0 < m < n` never returns to its start. -/
theorem mod_shift_ne (i m n : Nat) (hi : i < n) (hm1 : 0 < m) (hm2 : m < n) :
    (i + m) % n ≠ i := by
  rcases Nat.lt_or_ge (i + m) n with h | h
  · rw [Nat.mod_eq_of_lt h]; omega
  · rw [Nat.mod_eq_sub_mod h, Nat.mod_eq_of_lt (by omega)]; omega

/-- The index update of `combProcess`/`allpassProcess` is addition mod the
active length. -/
theorem idx_step_mod (i n : Nat) (h : i < n) :
    (if i + 1 ≥ n then 0 else i + 1) = (i + 1) % n := by
  rcases Nat.lt_or_ge (i + 1) n with h1 | h1
  · rw [if_neg (by omega), Nat.mod_eq_of_lt h1]
  · have h2 : i + 1 = n := by omega
    rw [if_pos h1, h2, Nat.mod_self]

/-- Running a comb over a list of inputs advances the write index by the
number of inputs, mod the active length, and preserves the buffer size. -/
theorem combRun_idx_length (damp1 feedback : Int) (inputs : List Int)
    (c : CombState) (len : Nat) (hidx : c.idx < len) :
    (combRun damp1 feedback inputs c len).2.idx = (c.idx + inputs.length) % len ∧
    (combRun damp1 feedback inputs c len).2.buf.length = c.buf.length := by
  induction inputs generalizing c with
  | nil => simp [combRun, Nat.mod_eq_of_lt hidx]
  | cons x rest ih =>
    have hlen0 : 0 < len := by omega
    set c1 := (combProcess damp1 feedback x c len).2 with hc1
    have hidx1 : c1.idx = (c.idx + 1) % len := by
      simp [hc1, combProcess, idx_step_mod c.idx len hidx]
    have hblen : c1.buf.length = c.buf.length := by
      simp [hc1, combProcess]
    have hlt : c1.idx < len := by rw [hidx1]; exact Nat.mod_lt _ hlen0
    have hstep : (combRun damp1 feedback (x :: rest) c len).2
        = (combRun damp1 feedback rest c1 len).2 := rfl
    have ihr := ih c1 hlt
    constructor
    · rw [hstep, ihr.1, hidx1, Nat.mod_add_mod,
        show c.idx + 1 + rest.length = c.idx + (x :: rest).length by
          simp; omega]
    · rw [hstep, ihr.2, hblen]

/-- Running a comb over inputs whose index walk never visits cell `j`
leaves cell `j` unchanged. -/
theorem combRun_cell_frame (damp1 feedback : Int) (inputs : List Int)
    (c : CombState) (len j : Nat) (hidx : c.idx < len)
    (hj : ∀ k, k < inputs.length → (c.idx + k) % len ≠ j) :
    (combRun damp1 feedback inputs c len).2.buf.getD j 0 = c.buf.getD j 0 := by
  induction inputs generalizing c with
  | nil => simp [combRun]
  | cons x rest ih =>
    have hlen0 : 0 < len := by omega
    set c1 := (combProcess damp1 feedback x c len).2 with hc1
    have hidx1 : c1.idx = (c.idx + 1) % len := by
      simp [hc1, combProcess, idx_step_mod c.idx len hidx]
    have hlt : c1.idx < len := by rw [hidx1]; exact Nat.mod_lt _ hlen0
    have hne : c.idx ≠ j := by
      have h0 := hj 0 (by simp)
      rwa [Nat.add_zero, Nat.mod_eq_of_lt hidx] at h0
    have hcell1 : c1.buf.getD j 0 = c.buf.getD j 0 := by
      simp only [hc1, combProcess]
      exact getD_set_ne _ _ _ _ hne
    have hj1 : ∀ k, k < rest.length → (c1.idx + k) % len ≠ j := by
      intro k hk
      rw [hidx1, Nat.mod_add_mod,
        show c.idx + 1 + k = c.idx + (k + 1) by omega]
      exact hj (k + 1) (by simp; omega)
    have hstep : (combRun damp1 feedback (x :: rest) c len).2
        = (combRun damp1 feedback rest c1 len).2 := rfl
    rw [hstep, ih c1 hlt hj1, hcell1]

/-- **C1.** One comb step with persistent state (buffer, write index
`idx < len`, damping memory) and coefficients `feedback` and `damp1`:
the returned output is the value stored at `idx` before the call; the
damping memory becomes `readValue + (oldMemory - readValue) * damp1`
(Q15 multiply with rounding, in the wrapping int16 domain of the source);
`saturate(input + newMemory * feedbackGain)` is stored at `idx`; the index
advances by one, wrapping to 0 at `len`.  Moreover the value written is
exactly the value the filter outputs `len` calls later, i.e. the output is
the sample written one full delay length earlier. -/
theorem combProcess_spec (damp1 feedback input : Int) (c : CombState)
    (len : Nat) (hidx : c.idx < len) (hbuf : len ≤ c.buf.length) :
    (combProcess damp1 feedback input c len).1 = c.buf.getD c.idx 0 ∧
    (combProcess damp1 feedback input c len).2.filt =
      i16 (c.buf.getD c.idx 0 +
        q15Mul (i16 (c.filt - c.buf.getD c.idx 0)) damp1) ∧
    (combProcess damp1 feedback input c len).2.buf =
      c.buf.set c.idx (q15Saturate (input +
        q15Mul ((combProcess damp1 feedback input c len).2.filt) feedback)) ∧
    (combProcess damp1 feedback input c len).2.idx = (c.idx + 1) % len ∧
    ∀ (mid : List Int) (x : Int), mid.length + 1 = len →
      (combProcess damp1 feedback x
        ((combRun damp1 feedback mid
          (combProcess damp1 feedback input c len).2 len).2) len).1 =
      q15Saturate (input +
        q15Mul ((combProcess damp1 feedback input c len).2.filt) feedback) := by
  set c1 := (combProcess damp1 feedback input c len).2 with hc1
  have hfilt : c1.filt =
      i16 (c.buf.getD c.idx 0 +
        q15Mul (i16 (c.filt - c.buf.getD c.idx 0)) damp1) := rfl
  have hbufeq : c1.buf =
      c.buf.set c.idx (q15Saturate (input + q15Mul c1.filt feedback)) := by
    simp only [hc1, combProcess, i16_q15Saturate]
  have hidx1 : c1.idx = (c.idx + 1) % len := by
    simp [hc1, combProcess, idx_step_mod c.idx len hidx]
  have hlen0 : 0 < len := by omega
  have hlt1 : c1.idx < len := by rw [hidx1]; exact Nat.mod_lt _ hlen0
  refine ⟨rfl, hfilt, hbufeq, hidx1, ?_⟩
  intro mid x hmid
  have hcell : c1.buf.getD c.idx 0 =
      q15Saturate (input + q15Mul c1.filt feedback) := by
    rw [hbufeq]
    exact getD_set_self _ _ _ (lt_of_lt_of_le hidx hbuf)
  have hframe : (combRun damp1 feedback mid c1 len).2.buf.getD c.idx 0 =
      c1.buf.getD c.idx 0 := by
    apply combRun_cell_frame damp1 feedback mid c1 len c.idx hlt1
    intro k hk
    rw [hidx1, Nat.mod_add_mod, show c.idx + 1 + k = c.idx + (k + 1) by omega]
    exact mod_shift_ne c.idx (k + 1) len hidx (by omega) (by omega)
  have hidx2 : (combRun damp1 feedback mid c1 len).2.idx = c.idx := by
    rw [(combRun_idx_length damp1 feedback mid c1 len hlt1).1, hidx1,
      Nat.mod_add_mod, show c.idx + 1 + mid.length = c.idx + len by omega,
      Nat.add_mod_right, Nat.mod_eq_of_lt hidx]
  show (combRun damp1 feedback mid c1 len).2.buf.getD
      (combRun damp1 feedback mid c1 len).2.idx 0 = _
  rw [hidx2, hframe, hcell]

/-- Witness for `combProcess_spec` at a concrete filter state. -/
theorem combProcess_spec_witness :
    (⟨[7, 8, 9], 1, 50⟩ : CombState).idx < 3 ∧
    3 ≤ (⟨[7, 8, 9], 1, 50⟩ : CombState).buf.length ∧
    ((combProcess 8192 16384 100 ⟨[7, 8, 9], 1, 50⟩ 3).1 =
      (⟨[7, 8, 9], 1, 50⟩ : CombState).buf.getD 1 0 ∧
     (combProcess 8192 16384 100 ⟨[7, 8, 9], 1, 50⟩ 3).2.filt =
      i16 ((⟨[7, 8, 9], 1, 50⟩ : CombState).buf.getD 1 0 +
        q15Mul (i16 (50 - (⟨[7, 8, 9], 1, 50⟩ : CombState).buf.getD 1 0)) 8192) ∧
     (combProcess 8192 16384 100 ⟨[7, 8, 9], 1, 50⟩ 3).2.buf =
      ([7, 8, 9] : List Int).set 1 (q15Saturate (100 +
        q15Mul ((combProcess 8192 16384 100 ⟨[7, 8, 9], 1, 50⟩ 3).2.filt) 16384)) ∧
     (combProcess 8192 16384 100 ⟨[7, 8, 9], 1, 50⟩ 3).2.idx = (1 + 1) % 3 ∧
     ∀ (mid : List Int) (x : Int), mid.length + 1 = 3 →
      (combProcess 8192 16384 x
        ((combRun 8192 16384 mid
          (combProcess 8192 16384 100 ⟨[7, 8, 9], 1, 50⟩ 3).2 3).2) 3).1 =
      q15Saturate (100 +
        q15Mul ((combProcess 8192 16384 100 ⟨[7, 8, 9], 1, 50⟩ 3).2.filt) 16384)) :=
  ⟨by decide, by decide,
   combProcess_spec 8192 16384 100 ⟨[7, 8, 9], 1, 50⟩ 3 (by decide) (by decide)⟩

/-- **C4.** One allpass step with state (buffer, write index `idx < len`)
and the fixed shared feedback coefficient 0.5 (`kApFeedbackQ15 = 16384` in
Q15, not parameter-controlled): the buffered value `bufout` is read at
`idx`; `acc = saturate(input + bufout * 0.5)` is stored at `idx`; the index
advances by one, wrapping at `len`; the return value is
`saturate(bufout - acc * 0.5)`. -/
theorem allpassProcess_spec (input : Int) (a : APState) (len : Nat)
    (hidx : a.idx < len) :
    kApFeedbackQ15 = q15FromFloat (1 / 2) ∧
    (allpassProcess input a len).2.buf =
      a.buf.set a.idx (q15Saturate (input +
        q15Mul (a.buf.getD a.idx 0) kApFeedbackQ15)) ∧
    (allpassProcess input a len).1 =
      q15Saturate (a.buf.getD a.idx 0 -
        q15Mul (q15Saturate (input +
          q15Mul (a.buf.getD a.idx 0) kApFeedbackQ15)) kApFeedbackQ15) ∧
    (allpassProcess input a len).2.idx = (a.idx + 1) % len := by
  refine ⟨by rw [q15FromFloat_half]; rfl, ?_, ?_, ?_⟩
  · simp only [allpassProcess, i16_q15Saturate]
  · simp only [allpassProcess, i16_q15Saturate]
  · simp [allpassProcess, idx_step_mod a.idx len hidx]

/-- Witness for `allpassProcess_spec` at a concrete filter state. -/
theorem allpassProcess_spec_witness :
    (⟨[-40, 600], 0⟩ : APState).idx < 2 ∧
    (kApFeedbackQ15 = q15FromFloat (1 / 2) ∧
     (allpassProcess 1000 ⟨[-40, 600], 0⟩ 2).2.buf =
      ([-40, 600] : List Int).set 0 (q15Saturate (1000 +
        q15Mul ((⟨[-40, 600], 0⟩ : APState).buf.getD 0 0) kApFeedbackQ15)) ∧
     (allpassProcess 1000 ⟨[-40, 600], 0⟩ 2).1 =
      q15Saturate ((⟨[-40, 600], 0⟩ : APState).buf.getD 0 0 -
        q15Mul (q15Saturate (1000 +
          q15Mul ((⟨[-40, 600], 0⟩ : APState).buf.getD 0 0) kApFeedbackQ15))
          kApFeedbackQ15) ∧
     (allpassProcess 1000 ⟨[-40, 600], 0⟩ 2).2.idx = (0 + 1) % 2) :=
  ⟨by decide, allpassProcess_spec 1000 ⟨[-40, 600], 0⟩ 2 (by decide)⟩

/-- **C10.** `setDryQ15` modifies only the dry-level coefficient: filters
(buffers, indices, damping memories, active lengths) and every other
parameter and derived coefficient are unchanged. -/
theorem setDryQ15_frame (v : Int) (s : Freeverb16) :
    (setDryQ15 v s).dryQ15 = v ∧
    (setDryQ15 v s).combL = s.combL ∧
    (setDryQ15 v s).combR = s.combR ∧
    (setDryQ15 v s).allpL = s.allpL ∧
    (setDryQ15 v s).allpR = s.allpR ∧
    (setDryQ15 v s).inputGainQ15 = s.inputGainQ15 ∧
    (setDryQ15 v s).roomSizeQ15 = s.roomSizeQ15 ∧
    (setDryQ15 v s).dampQ15 = s.dampQ15 ∧
    (setDryQ15 v s).feedbackQ15 = s.feedbackQ15 ∧
    (setDryQ15 v s).damp1Q15 = s.damp1Q15 ∧
    (setDryQ15 v s).damp2Q15 = s.damp2Q15 ∧
    (setDryQ15 v s).wetQ15 = s.wetQ15 ∧
    (setDryQ15 v s).widthQ15 = s.widthQ15 ∧
    (setDryQ15 v s).wet1Q15 = s.wet1Q15 ∧
    (setDryQ15 v s).wet2Q15 = s.wet2Q15 ∧
    (setDryQ15 v s).freeze = s.freeze :=
  ⟨rfl, rfl, rfl, rfl, rfl, rfl, rfl, rfl, rfl, rfl, rfl, rfl, rfl, rfl,
   rfl, rfl⟩

/-- **C9.** Disabling freeze always installs the fixed constant
`q15FromFloat(0.10) = 3276` as the input gain, regardless of any value
previously installed through `setInputGainQ15`; the custom gain is not
restored. -/
theorem setFreeze_off_inputGain (s : Freeverb16) (g : Int) :
    (setFreeze false (setInputGainQ15 g s)).inputGainQ15 =
      q15FromFloat (10 / 100) ∧
    (setFreeze false s).inputGainQ15 = q15FromFloat (10 / 100) ∧
    q15FromFloat (10 / 100) = 3276 :=
  ⟨rfl, rfl, q15FromFloat_p1⟩

/-- **C2 (counterexample).** Coefficients do *not* remain pinned across
room-size/damping setter calls made while freeze stays enabled: after
`setFreeze(true)`, a `setRoomSizeQ15(0)` call overwrites the pinned
feedback gain (9175 instead of `q15FromFloat(1.0) = 32766`), and a
`setDampingQ15(16384)` call overwrites the pinned `damp1 = 0` with 6554,
with freeze still enabled. -/
theorem freeze_pinning_cex :
    (setRoomSizeQ15 0 (setFreeze true (init 48000))).freeze = true ∧
    (setRoomSizeQ15 0 (setFreeze true (init 48000))).feedbackQ15 = 9175 ∧
    (setRoomSizeQ15 0 (setFreeze true (init 48000))).feedbackQ15 ≠
      q15FromFloat 1 ∧
    (setDampingQ15 16384 (setFreeze true (init 48000))).freeze = true ∧
    (setDampingQ15 16384 (setFreeze true (init 48000))).damp1Q15 = 6554 ∧
    (setDampingQ15 16384 (setFreeze true (init 48000))).damp1Q15 ≠ 0 := by
  refine ⟨rfl, ?_, ?_, rfl, ?_, ?_⟩
  · show q15Saturate (q15Mul 0 (q15FromFloat (7 / 10)) + q15FromFloat (28 / 100)) = 9175
    rw [q15FromFloat_p7, q15FromFloat_p28]; decide
  · show q15Saturate (q15Mul 0 (q15FromFloat (7 / 10)) + q15FromFloat (28 / 100)) ≠ _
    rw [q15FromFloat_p7, q15FromFloat_p28, q15FromFloat_one]; decide
  · show q15Mul 16384 (q15FromFloat (4 / 10)) = 6554
    rw [q15FromFloat_p4]; decide
  · show q15Mul 16384 (q15FromFloat (4 / 10)) ≠ 0
    rw [q15FromFloat_p4]; decide

/-- **C2 (amended).** Enabling freeze pins `feedback = q15FromFloat(1.0)`,
`damp1 = 0`, `inputGain = 0`.  However, room-size and damping setter calls
made while freeze stays enabled recompute `feedback` and `damp1` from their
arguments unconditionally (the pinned values are not retained); disabling
freeze restores the coefficients derived from the stored room-size and
damping parameters and the default input gain. -/
theorem setFreeze_pinning (s : Freeverb16) (v : Int) :
    ((setFreeze true s).feedbackQ15 = q15FromFloat 1 ∧
     (setFreeze true s).damp1Q15 = 0 ∧
     (setFreeze true s).inputGainQ15 = 0 ∧
     (setFreeze true s).freeze = true) ∧
    ((setRoomSizeQ15 v (setFreeze true s)).feedbackQ15 =
      q15Saturate (q15Mul v (q15FromFloat (7 / 10)) + q15FromFloat (28 / 100)) ∧
     (setDampingQ15 v (setFreeze true s)).damp1Q15 =
      q15Mul v (q15FromFloat (4 / 10))) ∧
    ((setFreeze false s).inputGainQ15 = q15FromFloat (10 / 100) ∧
     (setFreeze false s).feedbackQ15 = s.roomSizeQ15 ∧
     (setFreeze false s).damp1Q15 = s.dampQ15) :=
  ⟨⟨rfl, rfl, rfl, rfl⟩, ⟨rfl, rfl⟩, ⟨rfl, rfl, rfl⟩⟩

/-- One zero-input comb step under the freeze coefficients (`damp1 = 0`,
`feedback = 32766`) keeps every cell in the int16 range, keeps the index in
range, preserves the buffer size, and keeps any nonzero cell nonzero. -/
theorem freeze_comb_step (c : CombState) (len j : Nat)
    (hidx : c.idx < len)
    (hok : ∀ v ∈ c.buf, -32768 ≤ v ∧ v ≤ 32767) :
    (∀ v ∈ (combProcess 0 32766 0 c len).2.buf, -32768 ≤ v ∧ v ≤ 32767) ∧
    (combProcess 0 32766 0 c len).2.idx < len ∧
    (combProcess 0 32766 0 c len).2.buf.length = c.buf.length ∧
    (j < c.buf.length → c.buf.getD j 0 ≠ 0 →
      (combProcess 0 32766 0 c len).2.buf.getD j 0 ≠ 0) := by
  have hy := getD_range c.buf c.idx hok
  set y := c.buf.getD c.idx 0 with hydef
  have hmul := q15Mul_freeze y hy.1 hy.2
  have hwv : (combProcess 0 32766 0 c len).2.buf =
      c.buf.set c.idx (q15Mul y 32766) := by
    simp only [combProcess, q15Mul_zero_right, add_zero,
      i16_eq_self hy.1 hy.2, zero_add, ← hydef,
      q15Saturate_eq_self hmul.2.1 hmul.2.2.1,
      i16_eq_self hmul.2.1 hmul.2.2.1]
  refine ⟨?_, ?_, ?_, ?_⟩
  · intro v hv
    rw [hwv] at hv
    rcases mem_set_cases hv with h | h
    · exact hok v h
    · rw [h]; exact ⟨hmul.2.1, hmul.2.2.1⟩
  · have : (combProcess 0 32766 0 c len).2.idx = (c.idx + 1) % len := by
      simp [combProcess, idx_step_mod c.idx len hidx]
    rw [this]; exact Nat.mod_lt _ (by omega)
  · rw [hwv]; simp
  · intro hj hcell
    rw [hwv]
    by_cases h : c.idx = j
    · subst h
      rw [getD_set_self _ _ _ hj]
      rw [← hydef] at hcell
      rcases Int.lt_or_lt_of_ne hcell with hneg | hpos
      · have : q15Mul y 32766 ≤ -1 := hmul.2.2.2.2 (by omega)
        omega
      · have : 1 ≤ q15Mul y 32766 := hmul.2.2.2.1 (by omega)
        omega
    · rw [getD_set_ne _ _ _ _ h]; exact hcell

/-- **C3.** With freeze enabled (`setFreeze true` pins `damp1 = 0` and
`feedback = q15FromFloat(1.0) = 32766`) and every subsequent input sample
zero, a nonzero value previously injected into a comb delay line never
decays to zero: after arbitrarily many calls its cell remains at least one
Q15 quantum in magnitude. -/
theorem freeze_no_decay (s : Freeverb16) (c : CombState) (len j n : Nat)
    (hidx : c.idx < len)
    (hok : ∀ v ∈ c.buf, -32768 ≤ v ∧ v ≤ 32767)
    (hj : j < c.buf.length)
    (hcell : c.buf.getD j 0 ≠ 0) :
    1 ≤ ((combRun (setFreeze true s).damp1Q15 (setFreeze true s).feedbackQ15
        (List.replicate n 0) c len).2.buf.getD j 0).natAbs := by
  have hd : (setFreeze true s).damp1Q15 = 0 := rfl
  have hf : (setFreeze true s).feedbackQ15 = 32766 := q15FromFloat_one
  rw [hd, hf]
  suffices H : ∀ (m : Nat) (c0 : CombState), c0.idx < len →
      (∀ v ∈ c0.buf, -32768 ≤ v ∧ v ≤ 32767) → j < c0.buf.length →
      c0.buf.getD j 0 ≠ 0 →
      (combRun 0 32766 (List.replicate m 0) c0 len).2.buf.getD j 0 ≠ 0 by
    exact Int.natAbs_pos.mpr (H n c hidx hok hj hcell)
  intro m
  induction m with
  | zero => intro c0 _ _ _ h4; simpa [combRun] using h4
  | succ k ih =>
    intro c0 h1 h2 h3 h4
    have step := freeze_comb_step c0 len j h1 h2
    have hstep : (combRun 0 32766 (List.replicate (k + 1) 0) c0 len).2 =
        (combRun 0 32766 (List.replicate k 0)
          (combProcess 0 32766 0 c0 len).2 len).2 := by
      rw [List.replicate_succ]; rfl
    rw [hstep]
    exact ih _ step.2.1 step.1 (by rw [step.2.2.1]; exact h3)
      (step.2.2.2 h3 h4)

/-- Witness for `freeze_no_decay` at a concrete comb state. -/
theorem freeze_no_decay_witness :
    (⟨[100, 0], 0, 0⟩ : CombState).idx < 2 ∧
    (∀ v ∈ (⟨[100, 0], 0, 0⟩ : CombState).buf, -32768 ≤ v ∧ v ≤ 32767) ∧
    0 < (⟨[100, 0], 0, 0⟩ : CombState).buf.length ∧
    (⟨[100, 0], 0, 0⟩ : CombState).buf.getD 0 0 ≠ 0 ∧
    1 ≤ ((combRun (setFreeze true (init 48000)).damp1Q15
        (setFreeze true (init 48000)).feedbackQ15
        (List.replicate 5 0) ⟨[100, 0], 0, 0⟩ 2).2.buf.getD 0 0).natAbs :=
  ⟨by decide, by decide, by decide, by decide,
   freeze_no_decay (init 48000) ⟨[100, 0], 0, 0⟩ 2 0 5 (by decide)
     (by decide) (by decide) (by decide)⟩

/-- Rounding bound for `q15Mul wet sv` against an ideal Q16 product
`wet * ideal / 65536`, when `2 * sv` is within one unit of `ideal`. -/
theorem q15Mul_near (wet sv ideal : Int) (hw1 : 0 ≤ wet) (hw2 : wet ≤ 32767)
    (hs1 : 0 ≤ sv) (hs2 : sv ≤ 32767)
    (ht : 2 * sv - ideal = -1 ∨ 2 * sv - ideal = 0 ∨ 2 * sv - ideal = 1) :
    -65536 ≤ 65536 * q15Mul wet sv - wet * ideal ∧
    65536 * q15Mul wet sv - wet * ideal ≤ 65536 := by
  have hP1 : 0 ≤ wet * sv := mul_nonneg hw1 hs1
  have hP2 : wet * sv ≤ 32767 * 32767 :=
    mul_le_mul hw2 hs2 hs1 (by norm_num)
  have hid : q15Mul wet sv = (wet * sv + 16384) / 32768 := by
    unfold q15Mul
    exact i16_eq_self (by omega) (by omega)
  rcases ht with h | h | h
  · have hideal : ideal = 2 * sv + 1 := by omega
    have hexp : wet * (2 * sv + 1) = 2 * (wet * sv) + wet := by ring
    rw [hid, hideal, hexp]
    omega
  · have hideal : ideal = 2 * sv := by omega
    have hexp : wet * (2 * sv) = 2 * (wet * sv) := by ring
    rw [hid, hideal, hexp]
    omega
  · have hideal : ideal = 2 * sv - 1 := by omega
    have hexp : wet * (2 * sv - 1) = 2 * (wet * sv) - wet := by ring
    rw [hid, hideal, hexp]
    omega

/-- With wet and width in their nominal range `[0, 32767]`, `updateWetMix`
establishes the claimed relation between the stored parameters and the
derived mix gains. -/
theorem updateWetMix_consistent (s : Freeverb16)
    (hw1 : 0 ≤ s.wetQ15) (hw2 : s.wetQ15 ≤ 32767)
    (hd1 : 0 ≤ s.widthQ15) (hd2 : s.widthQ15 ≤ 32767) :
    wetMixConsistent (updateWetMix s) := by
  have hwet : (updateWetMix s).wetQ15 = s.wetQ15 := rfl
  have hwidth : (updateWetMix s).widthQ15 = s.widthQ15 := rfl
  have hia : i16 ((s.widthQ15 + 1) / 2) = (s.widthQ15 + 1) / 2 :=
    i16_eq_self (by omega) (by omega)
  have hib : i16 (16384 - (s.widthQ15 + 1) / 2) = 16384 - (s.widthQ15 + 1) / 2 :=
    i16_eq_self (by omega) (by omega)
  have h1 : (updateWetMix s).wet1Q15 = q15Mul s.wetQ15
      (if (s.widthQ15 + 1) / 2 + 16384 > 32767 then 32767
       else (s.widthQ15 + 1) / 2 + 16384) := by
    simp only [updateWetMix, hia]
  have h2 : (updateWetMix s).wet2Q15 =
      q15Mul s.wetQ15 (16384 - (s.widthQ15 + 1) / 2) := by
    simp only [updateWetMix, hia, hib]
  unfold wetMixConsistent
  rw [hwet, hwidth, h1, h2]
  set w := s.widthQ15 with hwdef
  set a := (w + 1) / 2 with hadef
  refine ⟨?_, ?_, ?_, ?_⟩
  · by_cases hcl : a + 16384 > 32767
    · rw [if_pos hcl]
      exact q15Mul_near _ _ _ hw1 hw2 (by norm_num) (by norm_num) (by omega)
    · rw [if_neg hcl]
      exact q15Mul_near _ _ _ hw1 hw2 (by omega) (by omega) (by omega)
  · exact q15Mul_near _ _ _ hw1 hw2 (by omega) (by omega) (by omega)
  · intro hw32
    rw [hw32] at hadef
    norm_num at hadef
    rw [hadef]
    norm_num [q15Mul_zero_right]
  · intro hw0
    rw [hw0] at hadef
    norm_num at hadef
    rw [hadef, q15FromFloat_half]
    norm_num

/-- A wet/width setter leaves each of the stored wet/width parameters either
unchanged or equal to the setter's argument. -/
theorem applyWW_fields (call : WetWidthCall) (s : Freeverb16) :
    ((applyWW call s).wetQ15 = s.wetQ15 ∨ (applyWW call s).wetQ15 = wwArg call) ∧
    ((applyWW call s).widthQ15 = s.widthQ15 ∨
      (applyWW call s).widthQ15 = wwArg call) := by
  cases call with
  | wet v => exact ⟨Or.inr rfl, Or.inl rfl⟩
  | width v => exact ⟨Or.inl rfl, Or.inr rfl⟩

/-- Any single wet/width setter call with a nominal-range argument leaves
the derived mix gains consistent with the stored parameters. -/
theorem applyWW_consistent (call : WetWidthCall) (s : Freeverb16)
    (h1 : 0 ≤ wwArg call) (h2 : wwArg call ≤ 32767)
    (hs1 : 0 ≤ s.wetQ15) (hs2 : s.wetQ15 ≤ 32767)
    (hs3 : 0 ≤ s.widthQ15) (hs4 : s.widthQ15 ≤ 32767) :
    wetMixConsistent (applyWW call s) := by
  cases call with
  | wet v => exact updateWetMix_consistent { s with wetQ15 := v } h1 h2 hs3 hs4
  | width v => exact updateWetMix_consistent { s with widthQ15 := v } hs1 hs2 h1 h2

/-- **C6.** After any nonempty sequence of wet-level and width setter calls
(arguments in the documented nominal range `[0, 32767]`, starting from a
state whose stored wet/width are in range), the derived mix gains satisfy
`wet1 = wet * (width/2 + 0.5)` and `wet2 = wet * ((1 - width)/2)` up to one
Q15 unit of rounding; at full width `wet2 = 0` exactly, and at zero width
`wet1 = wet2 = wet * 0.5`. -/
theorem wetMix_after_setters (s : Freeverb16) (calls : List WetWidthCall)
    (hargs : ∀ call ∈ calls, 0 ≤ wwArg call ∧ wwArg call ≤ 32767)
    (hs1 : 0 ≤ s.wetQ15) (hs2 : s.wetQ15 ≤ 32767)
    (hs3 : 0 ≤ s.widthQ15) (hs4 : s.widthQ15 ≤ 32767)
    (hne : calls ≠ []) :
    wetMixConsistent (applyWWs calls s) := by
  suffices H : ∀ (cs : List WetWidthCall) (t : Freeverb16),
      (∀ call ∈ cs, 0 ≤ wwArg call ∧ wwArg call ≤ 32767) →
      0 ≤ t.wetQ15 → t.wetQ15 ≤ 32767 → 0 ≤ t.widthQ15 → t.widthQ15 ≤ 32767 →
      cs ≠ [] → wetMixConsistent (applyWWs cs t) by
    exact H calls s hargs hs1 hs2 hs3 hs4 hne
  intro cs
  induction cs with
  | nil => intro t _ _ _ _ _ hne; exact absurd rfl hne
  | cons call rest ih =>
    intro t hargs hs1 hs2 hs3 hs4 _
    have hcall := hargs call (List.mem_cons_self call rest)
    have hargs' : ∀ c ∈ rest, 0 ≤ wwArg c ∧ wwArg c ≤ 32767 := fun c hc =>
      hargs c (List.mem_cons_of_mem call hc)
    have hfld := applyWW_fields call t
    have hw1 : 0 ≤ (applyWW call t).wetQ15 := by
      rcases hfld.1 with h | h
      · rw [h]; exact hs1
      · rw [h]; exact hcall.1
    have hw2 : (applyWW call t).wetQ15 ≤ 32767 := by
      rcases hfld.1 with h | h
      · rw [h]; exact hs2
      · rw [h]; exact hcall.2
    have hw3 : 0 ≤ (applyWW call t).widthQ15 := by
      rcases hfld.2 with h | h
      · rw [h]; exact hs3
      · rw [h]; exact hcall.1
    have hw4 : (applyWW call t).widthQ15 ≤ 32767 := by
      rcases hfld.2 with h | h
      · rw [h]; exact hs4
      · rw [h]; exact hcall.2
    have hstep : applyWWs (call :: rest) t = applyWWs rest (applyWW call t) := rfl
    rw [hstep]
    by_cases hr : rest = []
    · subst hr
      exact applyWW_consistent call t hcall.1 hcall.2 hs1 hs2 hs3 hs4
    · exact ih (applyWW call t) hargs' hw1 hw2 hw3 hw4 hr

/-- Witness for `wetMix_after_setters` at a concrete state and a concrete
call sequence (width then wet). -/
theorem wetMix_after_setters_witness :
    (∀ call ∈ [WetWidthCall.width 32767, WetWidthCall.wet 16000],
      0 ≤ wwArg call ∧ wwArg call ≤ 32767) ∧
    (0 : Int) ≤ 10000 ∧ (10000 : Int) ≤ 32767 ∧
    (0 : Int) ≤ 20000 ∧ (20000 : Int) ≤ 32767 ∧
    [WetWidthCall.width 32767, WetWidthCall.wet 16000] ≠ [] ∧
    wetMixConsistent (applyWWs
      [WetWidthCall.width 32767, WetWidthCall.wet 16000]
      (Freeverb16.mk [] [] [] [] 0 0 0 0 0 0 10000 0 20000 0 0 false)) :=
  ⟨by decide, by decide, by decide, by decide, by decide, by decide,
   wetMix_after_setters
     (Freeverb16.mk [] [] [] [] 0 0 0 0 0 0 10000 0 20000 0 0 false)
     [WetWidthCall.width 32767, WetWidthCall.wet 16000]
     (by decide) (by decide) (by decide) (by decide) (by decide) (by decide)⟩

/-- **C5.** Initialization at a target sample rate: every comb/allpass
active length is the reference tuning scaled by `sampleRate / 44100` with
rounding to the nearest integer (ties up: the source's
`(base * sampleRate + 22050) / 44100` equals the rounding formula
`(2 * base * sampleRate + 44100) / 88200`), the right-channel lengths add
the fixed spread 23 before clamping, every length is clamped into
`[1, capacity]` (2048 per comb, 640 per allpass), all delay buffers, write
indices and damping memories are zeroed, and the default parameters are
applied (room 0.5, damping 0.5, wet 1/3, dry 1.0, width 1.0, input gain
0.10, freeze off), giving the concrete derived coefficients listed. -/
theorem init_spec (sampleRate : Nat) :
    (init sampleRate).combL = baseComb.map (fun b =>
      (⟨List.replicate 2048 0, 0, 0⟩, clampLen kCombMax (scaleLen b sampleRate))) ∧
    (init sampleRate).combR = baseComb.map (fun b =>
      (⟨List.replicate 2048 0, 0, 0⟩,
        clampLen kCombMax (scaleLen b sampleRate + kSpread))) ∧
    (init sampleRate).allpL = baseAllp.map (fun b =>
      (⟨List.replicate 640 0, 0⟩, clampLen kAllpMax (scaleLen b sampleRate))) ∧
    (init sampleRate).allpR = baseAllp.map (fun b =>
      (⟨List.replicate 640 0, 0⟩,
        clampLen kAllpMax (scaleLen b sampleRate + kSpread))) ∧
    kSpread = 23 ∧ kCombMax = 2048 ∧ kAllpMax = 640 ∧
    (∀ b sr : Nat, scaleLen b sr = (2 * (b * sr) + 44100) / 88200 ∧
      ((b * sr : Int) - 22050 ≤ 44100 * (scaleLen b sr : Int) ∧
       44100 * (scaleLen b sr : Int) ≤ (b * sr : Int) + 22050)) ∧
    (∀ cap n : Nat, 1 ≤ cap → 1 ≤ clampLen cap n ∧ clampLen cap n ≤ cap) ∧
    ((init sampleRate).wetQ15 = q15FromFloat (1 / 3) ∧
     (init sampleRate).dryQ15 = q15FromFloat 1 ∧
     (init sampleRate).widthQ15 = q15FromFloat 1 ∧
     (init sampleRate).inputGainQ15 = q15FromFloat (10 / 100) ∧
     (init sampleRate).freeze = false) ∧
    ((init sampleRate).roomSizeQ15 = 20644 ∧
     (init sampleRate).feedbackQ15 = 20644 ∧
     (init sampleRate).dampQ15 = 6554 ∧
     (init sampleRate).damp1Q15 = 6554 ∧
     (init sampleRate).damp2Q15 = 26213 ∧
     (init sampleRate).wetQ15 = 10922 ∧
     (init sampleRate).dryQ15 = 32766 ∧
     (init sampleRate).widthQ15 = 32766 ∧
     (init sampleRate).inputGainQ15 = 3276 ∧
     (init sampleRate).wet1Q15 = 10922 ∧
     (init sampleRate).wet2Q15 = 0) := by
  refine ⟨?_, ?_, ?_, ?_, rfl, rfl, rfl, ?_, ?_, ⟨rfl, rfl, rfl, rfl, rfl⟩, ?_⟩
  · simp only [init, resetState, setFreeze, setWidthQ15, setDryQ15, setWetQ15,
      setDampingQ15, setRoomSizeQ15, updateFeedback, updateDamp, updateWetMix,
      Bool.false_eq_true, if_false, List.map_map]
    rfl
  · simp only [init, resetState, setFreeze, setWidthQ15, setDryQ15, setWetQ15,
      setDampingQ15, setRoomSizeQ15, updateFeedback, updateDamp, updateWetMix,
      Bool.false_eq_true, if_false, List.map_map]
    rfl
  · simp only [init, resetState, setFreeze, setWidthQ15, setDryQ15, setWetQ15,
      setDampingQ15, setRoomSizeQ15, updateFeedback, updateDamp, updateWetMix,
      Bool.false_eq_true, if_false, List.map_map]
    rfl
  · simp only [init, resetState, setFreeze, setWidthQ15, setDryQ15, setWetQ15,
      setDampingQ15, setRoomSizeQ15, updateFeedback, updateDamp, updateWetMix,
      Bool.false_eq_true, if_false, List.map_map]
    rfl
  · intro b sr
    refine ⟨?_, ?_, ?_⟩ <;> (unfold scaleLen; omega)
  · intro cap n hcap
    unfold clampLen
    constructor <;> split_ifs <;> omega
  · simp only [init, resetState, setFreeze, setWidthQ15, setDryQ15, setWetQ15,
      setDampingQ15, setRoomSizeQ15, updateFeedback, updateDamp, updateWetMix,
      setInputGainQ15, Bool.false_eq_true, if_false,
      q15FromFloat_one, q15FromFloat_half, q15FromFloat_third,
      q15FromFloat_p7, q15FromFloat_p28, q15FromFloat_p4, q15FromFloat_p1]
    refine ⟨?_, ?_, ?_, ?_, ?_, ?_, ?_, ?_, ?_, ?_, ?_⟩ <;> decide

/-- Summing the comb-bank loop equals the sum of the per-comb outputs taken
independently on the pre-call state (the eight combs use disjoint state). -/
theorem combBankStep_sum (damp1 feedback input : Int)
    (bank : List (CombState × Nat)) :
    (combBankStep damp1 feedback input bank).1 =
      (bank.map fun p => (combProcess damp1 feedback input p.1 p.2).1).sum := by
  induction bank with
  | nil => rfl
  | cons p rest ih => simp [combBankStep, ih]

/-- The sum of the comb outputs is bounded by the bank size times the int16
range, when every delay cell is a genuine int16 value. -/
theorem combBank_sum_range (damp1 feedback input : Int)
    (bank : List (CombState × Nat))
    (hok : ∀ p ∈ bank, ∀ v ∈ p.1.buf, -32768 ≤ v ∧ v ≤ 32767) :
    -(32768 * bank.length : Int) ≤
      (bank.map fun p => (combProcess damp1 feedback input p.1 p.2).1).sum ∧
    (bank.map fun p => (combProcess damp1 feedback input p.1 p.2).1).sum ≤
      32767 * bank.length := by
  induction bank with
  | nil => simp
  | cons p rest ih =>
    have hp := getD_range p.1.buf p.1.idx (hok p (List.mem_cons_self p rest))
    have hr := ih fun q hq => hok q (List.mem_cons_of_mem p hq)
    have hhead : (combProcess damp1 feedback input p.1 p.2).1 =
        p.1.buf.getD p.1.idx 0 := rfl
    simp only [List.map_cons, List.sum_cons, List.length_cons, hhead]
    push_cast
    constructor <;> nlinarith [hr.1, hr.2, hp.1, hp.2]

/-- **C7.** For each channel of a processed sample, the comb-bank output fed
into the allpass cascade (`combBankOut`, used for both channels by
`processSample`) equals the sum of the eight comb outputs divided by 8 with
rounding: it is `(sum + 4) >> 3`, which lies within 4 of `sum/8` scaled,
i.e. `8 * out` is within 4 of the sum. -/
theorem combBankOut_spec (damp1 feedback input : Int)
    (bank : List (CombState × Nat))
    (hlen : bank.length = 8)
    (hok : ∀ p ∈ bank, ∀ v ∈ p.1.buf, -32768 ≤ v ∧ v ≤ 32767) :
    (combBankOut damp1 feedback input bank).1 =
      ((bank.map fun p => (combProcess damp1 feedback input p.1 p.2).1).sum + 4) / 8 ∧
    (bank.map fun p => (combProcess damp1 feedback input p.1 p.2).1).sum - 4 ≤
      8 * (combBankOut damp1 feedback input bank).1 ∧
    8 * (combBankOut damp1 feedback input bank).1 ≤
      (bank.map fun p => (combProcess damp1 feedback input p.1 p.2).1).sum + 4 := by
  have hsum := combBankStep_sum damp1 feedback input bank
  have hrange := combBank_sum_range damp1 feedback input bank hok
  rw [hlen] at hrange
  have h1 : (combBankOut damp1 feedback input bank).1 =
      i16 (((bank.map fun p =>
        (combProcess damp1 feedback input p.1 p.2).1).sum + 4) / 8) := by
    simp [combBankOut, hsum]
  rw [h1, i16_eq_self (by push_cast at hrange; omega) (by push_cast at hrange; omega)]
  refine ⟨rfl, by push_cast at hrange; omega, by push_cast at hrange; omega⟩

/-- Witness for `combBankOut_spec` at a concrete bank of eight combs. -/
theorem combBankOut_spec_witness :
    bank8.length = 8 ∧
    (∀ p ∈ bank8, ∀ v ∈ p.1.buf, -32768 ≤ v ∧ v ≤ 32767) ∧
    ((combBankOut 100 16384 50 bank8).1 =
      ((bank8.map fun p => (combProcess 100 16384 50 p.1 p.2).1).sum + 4) / 8 ∧
     (bank8.map fun p => (combProcess 100 16384 50 p.1 p.2).1).sum - 4 ≤
      8 * (combBankOut 100 16384 50 bank8).1 ∧
     8 * (combBankOut 100 16384 50 bank8).1 ≤
      (bank8.map fun p => (combProcess 100 16384 50 p.1 p.2).1).sum + 4) :=
  ⟨by decide, by decide,
   combBankOut_spec 100 16384 50 bank8 (by decide) (by decide)⟩

/-- **C8.** For every processed sample, each mixed output value is
saturated to the internal Q15 range (`[-32768, 32767]`) and then converted
back to the external sample domain by the fixed arithmetic (sign-extending)
right shift of 4 bits — floor division by 16 — before being written to the
output; consequently every output sample lies in the device range
`[-2048, 2047]` and the final int16 cast never wraps. -/
theorem processSample_output_spec (s : Freeverb16) (inl inr : Int) :
    let xL := i16 (16 * inl)
    let xR := i16 (16 * inr)
    let yL := (allpCascade (combBankOut s.damp1Q15 s.feedbackQ15
        (q15Mul xL s.inputGainQ15) s.combL).1 s.allpL).1
    let yR := (allpCascade (combBankOut s.damp1Q15 s.feedbackQ15
        (q15Mul xR s.inputGainQ15) s.combR).1 s.allpR).1
    let mixL := q15Mul yL s.wet1Q15 + q15Mul yR s.wet2Q15 + q15Mul xL s.dryQ15
    let mixR := q15Mul yR s.wet1Q15 + q15Mul yL s.wet2Q15 + q15Mul xR s.dryQ15
    (processSample s inl inr).1.1 = q15Saturate mixL / 16 ∧
    (processSample s inl inr).1.2 = q15Saturate mixR / 16 ∧
    (-32768 ≤ q15Saturate mixL ∧ q15Saturate mixL ≤ 32767) ∧
    (-32768 ≤ q15Saturate mixR ∧ q15Saturate mixR ≤ 32767) ∧
    (-2048 ≤ (processSample s inl inr).1.1 ∧
      (processSample s inl inr).1.1 ≤ 2047) ∧
    (-2048 ≤ (processSample s inl inr).1.2 ∧
      (processSample s inl inr).1.2 ≤ 2047) := by
  intro xL xR yL yR mixL mixR
  have hsatL := q15Saturate_range mixL
  have hsatR := q15Saturate_range mixR
  have hL : (processSample s inl inr).1.1 = i16 (q15Saturate mixL / 16) := rfl
  have hR : (processSample s inl inr).1.2 = i16 (q15Saturate mixR / 16) := rfl
  have hidL : i16 (q15Saturate mixL / 16) = q15Saturate mixL / 16 :=
    i16_eq_self (by omega) (by omega)
  have hidR : i16 (q15Saturate mixR / 16) = q15Saturate mixR / 16 :=
    i16_eq_self (by omega) (by omega)
  rw [hL, hR, hidL, hidR]
  exact ⟨rfl, rfl, hsatL, hsatR, by constructor <;> omega,
    by constructor <;> omega⟩

end dsp
